import Mathlib

/-!
Shallow embedding of the CHIP-8 interpreter core (`src/chip8/mod.rs`).

The CPU state mirrors the Rust `struct CPU`.  Machine integers are modelled
as `Nat` with explicit `% 2^w` exactly where the Rust code wraps
(`overflowing_add`, `overflowing_sub`, `u8` shifts, release-mode `+`);
fixed-size arrays become total functions `Nat → _`, with every in-bounds
access of the Rust code translated verbatim (a Rust index that would panic
out of bounds is totalised and is outside the scope of every theorem below).
The random byte consumed by opcode `Cxkk` is passed to `step` as an explicit
oracle argument, and the two `println!` calls of `step` are modelled as a
`List String` output component of its result.
-/

namespace Chip8

/-- The interpreter state: memory, registers, index register, timers,
program counter, stack pointer, stack, 64×32 screen and 16-key keyboard,
mirroring `struct CPU` in `src/chip8/mod.rs`. -/
structure CPU where
  memory : Nat → Nat
  registers : Nat → Nat
  i : Nat
  dt : Nat
  st : Nat
  pc : Nat
  sp : Nat
  stack : Nat → Nat
  screen : Nat → Nat → Bool
  keyboard : Nat → Bool

/-- Write register `x` (no masking: callers store already-wrapped bytes,
as in the Rust code where the stored value is a `u8`). -/
def setReg (c : CPU) (x v : Nat) : CPU :=
  { c with registers := Function.update c.registers x v }

/-- Write memory cell `a`. -/
def setMem (c : CPU) (a v : Nat) : CPU :=
  { c with memory := Function.update c.memory a v }

/-- Write one screen cell. -/
def setScreen (c : CPU) (y x : Nat) (v : Bool) : CPU :=
  { c with screen := fun r col => if r = y ∧ col = x then v else c.screen r col }

/-- `fn push`: `stack[sp] = val; sp += 1`.  The Rust index panics for
`sp ≥ 16`; the model reduces the index mod 16 there. -/
def push (val : Nat) (c : CPU) : CPU :=
  { c with stack := Function.update c.stack (c.sp % 16) val, sp := c.sp + 1 }

/-- `fn pop`: `sp -= 1; stack[sp]` (truncated at 0 where Rust would panic). -/
def pop (c : CPU) : Nat × CPU :=
  (c.stack (c.sp - 1), { c with sp := c.sp - 1 })

/-- Rust `format!("{:x}", d)` of a 4-bit value: one lowercase hex digit. -/
def hexDigitChar (n : Nat) : Char :=
  if n < 10 then Char.ofNat (48 + n) else Char.ofNat (97 + (n - 10))

/-- One character step of `u16::from_str_radix(_, 16)`: the numeric value of
a hex digit character (`'0'..'9'`, `'a'..'f'`). -/
def hexCharVal (ch : Char) : Nat :=
  if ch.toNat ≤ 57 then ch.toNat - 48 else ch.toNat - 87

/-- `fn concat_digits`: format the three 4-bit fields as a hex string and
re-parse it in base 16, as the Rust code does. -/
def concat_digits (a b c : Nat) : Nat :=
  let hex_string : List Char := [hexDigitChar a, hexDigitChar b, hexDigitChar c]
  hex_string.foldl (fun acc ch => 16 * acc + hexCharVal ch) 0

/-- `fn update_key`. -/
def update_key (key : Nat) (state : Bool) (c : CPU) : CPU :=
  { c with keyboard := Function.update c.keyboard key state }

/-- `fn tick`. -/
def tick (c : CPU) : CPU :=
  { c with st := if 0 < c.st then c.st - 1 else c.st,
           dt := if 0 < c.dt then c.dt - 1 else c.dt }

/-- Opcode `00E0`. -/
def clear (c : CPU) : CPU :=
  { c with screen := fun _ _ => false }

/-- Opcode `00EE`. -/
def ret (c : CPU) : CPU :=
  let p := pop c
  { p.2 with pc := p.1 }

/-- Opcode `1nnn`. -/
def jump (addr : Nat) (c : CPU) : CPU :=
  { c with pc := addr }

/-- Opcode `2nnn`. -/
def call (addr : Nat) (c : CPU) : CPU :=
  let c1 := push c.pc c
  { c1 with pc := addr }

/-- Opcode `3xkk`. -/
def skip_if_equal (x kk : Nat) (c : CPU) : CPU :=
  if c.registers x = kk then { c with pc := c.pc + 2 } else c

/-- Opcode `4xkk`. -/
def skip_if_not_equal (x kk : Nat) (c : CPU) : CPU :=
  if c.registers x ≠ kk then { c with pc := c.pc + 2 } else c

/-- Opcode `5xy0`. -/
def skip_if_registers_equal (x y : Nat) (c : CPU) : CPU :=
  if c.registers x = c.registers y then { c with pc := c.pc + 2 } else c

/-- Opcode `6xkk`. -/
def copy_into_register (x kk : Nat) (c : CPU) : CPU :=
  setReg c x kk

/-- Opcode `7xkk`: `overflowing_add`, overflow bit discarded. -/
def increment_register (x kk : Nat) (c : CPU) : CPU :=
  setReg c x ((c.registers x + kk) % 256)

/-- Opcode `8xy0`. -/
def copy_register (x y : Nat) (c : CPU) : CPU :=
  setReg c x (c.registers y)

/-- Opcode `8xy1`. -/
def or_registers (x y : Nat) (c : CPU) : CPU :=
  setReg c x (c.registers x ||| c.registers y)

/-- Opcode `8xy2`. -/
def and_registers (x y : Nat) (c : CPU) : CPU :=
  setReg c x (c.registers x &&& c.registers y)

/-- Opcode `8xy3`. -/
def xor_registers (x y : Nat) (c : CPU) : CPU :=
  setReg c x (c.registers x ^^^ c.registers y)

/-- Opcode `8xy4`: `overflowing_add`; result written to `Vx` first, then the
carry into `VF` (so a coinciding destination is overwritten by the flag). -/
def add_registers (x y : Nat) (c : CPU) : CPU :=
  let result := (c.registers x + c.registers y) % 256
  let greater : Bool := decide (256 ≤ c.registers x + c.registers y)
  let c1 := setReg c x result
  setReg c1 15 (if greater then 1 else 0)

/-- Opcode `8xy5`: `overflowing_sub`; `VF := !borrow` written last. -/
def subtract_registers (x y : Nat) (c : CPU) : CPU :=
  let result := (c.registers x + 256 - c.registers y) % 256
  let borrow : Bool := decide (c.registers x < c.registers y)
  let c1 := setReg c x result
  setReg c1 15 (if borrow then 0 else 1)

/-- Opcode `8xy6`: `VF` receives the shifted-out bit, written last. -/
def right_shift_register (x : Nat) (c : CPU) : CPU :=
  let shifted_bit := c.registers x &&& 1
  let c1 := setReg c x (c.registers x >>> 1)
  setReg c1 15 shifted_bit

/-- Opcode `8xy7`: `Vy - Vx` via `overflowing_sub`; `VF := !borrow` last. -/
def subtract_numeric_registers (x y : Nat) (c : CPU) : CPU :=
  let result := (c.registers y + 256 - c.registers x) % 256
  let borrow : Bool := decide (c.registers y < c.registers x)
  let c1 := setReg c x result
  setReg c1 15 (if borrow then 0 else 1)

/-- Opcode `8xyE`: `u8` left shift (high bit dropped); `VF` = old bit 7. -/
def left_shift_register (x : Nat) (c : CPU) : CPU :=
  let msb := c.registers x &&& 0x80
  let c1 := setReg c x ((c.registers x <<< 1) % 256)
  setReg c1 15 (if msb = 0x80 then 1 else 0)

/-- Opcode `9xy0`. -/
def skip_if_registers_not_equal (x y : Nat) (c : CPU) : CPU :=
  if c.registers x ≠ c.registers y then { c with pc := c.pc + 2 } else c

/-- Opcode `Annn`. -/
def copy_into_i_register (nnn : Nat) (c : CPU) : CPU :=
  { c with i := nnn }

/-- Opcode `Bnnn`. -/
def offset_register_jump (nnn : Nat) (c : CPU) : CPU :=
  { c with pc := nnn + c.registers 0 }

/-- Opcode `Cxkk`: `Vx := kk & rnd`, where `rnd` is the oracle byte. -/
def generate_random_value (x kk rnd : Nat) (c : CPU) : CPU :=
  setReg c x (kk &&& rnd)

/-- The sprite bit drawn by `fn draw` at bit column `xi` of a row byte:
`((next_byte << x_iter) & 0x80) != 0`, with the `u8` left shift wrapped. -/
def pix (byte xi : Nat) : Bool :=
  decide (((byte <<< xi) % 256) &&& 0x80 ≠ 0)

/-- One inner-loop iteration of `fn draw` (one bit column `xi` of a sprite
row byte at screen row `ypos`). -/
def drawPixel (byte sx ypos : Nat) (c : CPU) (xi : Nat) : CPU :=
  let pixel : Bool := pix byte xi
  let xpos := (sx + xi) % 64
  let c1 := if pixel && c.screen ypos xpos then setReg c 15 1 else c
  setScreen c1 ypos xpos (xor (c1.screen ypos xpos) pixel)

/-- One outer-loop iteration of `fn draw`: blit sprite row `line`, whose
byte is read from `memory[I + line]` of the current state. -/
def drawRow (sx sy : Nat) (acc : CPU) (line : Nat) : CPU :=
  let next_byte := acc.memory (acc.i + line)
  let ypos := (sy + line) % 32
  (List.range 8).foldl (drawPixel next_byte sx ypos) acc

/-- Opcode `Dxyn` (`fn draw`): `VF` is zeroed, then the origin registers
are read, then each of the `n` sprite rows read from `memory[I + line]` is
XOR-blitted with wraparound and collision detection. -/
def draw (x y n : Nat) (c : CPU) : CPU :=
  let c0 := setReg c 15 0
  let starting_x := c0.registers x
  let starting_y := c0.registers y
  (List.range n).foldl (drawRow starting_x starting_y) c0

/-- Toggle indicator of one blitted sprite row: `true` when cell
`(r, col)` is flipped while drawing bit columns `0..k-1` of `byte` at
screen row `ypos` with origin column `sx`. -/
def rowTog (byte sx ypos k r col : Nat) : Bool :=
  (r == ypos) && ((List.range k).any fun j => (col == (sx + j) % 64) && pix byte j)

/-- Collision indicator of one blitted sprite row against screen `scr`. -/
def rowHit (scr : Nat → Nat → Bool) (byte sx ypos k : Nat) : Bool :=
  (List.range k).any fun j => pix byte j && scr ypos ((sx + j) % 64)

/-- Toggle indicator of an `m`-row sprite blit at cell `(r, col)`. -/
def sprTog (mem : Nat → Nat) (base sx sy m r col : Nat) : Bool :=
  (List.range m).any fun line => rowTog (mem (base + line)) sx ((sy + line) % 32) 8 r col

/-- Collision indicator of an `m`-row sprite blit against screen `scr`. -/
def sprHit (scr : Nat → Nat → Bool) (mem : Nat → Nat) (base sx sy m : Nat) : Bool :=
  (List.range m).any fun line => rowHit scr (mem (base + line)) sx ((sy + line) % 32) 8

/-- Opcode `Ex9E`. -/
def skip_if_key_pressed (x : Nat) (c : CPU) : CPU :=
  if c.keyboard (c.registers x) then { c with pc := c.pc + 2 } else c

/-- Opcode `ExA1`. -/
def skip_if_key_not_pressed (x : Nat) (c : CPU) : CPU :=
  if ¬ c.keyboard (c.registers x) then { c with pc := c.pc + 2 } else c

/-- Opcode `Fx07`. -/
def copy_dt_into_register (x : Nat) (c : CPU) : CPU :=
  setReg c x c.dt

/-- Opcode `Fx0A` (`fn wait_for_key_press`): the Rust loop is
`for key in 0..0xF`, i.e. it scans key indices `0,…,14` (15 is excluded by
the half-open range) and stores the first pressed one; if none is found the
program counter is rewound by 2 so the instruction repeats. -/
def wait_for_key_press (x : Nat) (c : CPU) : CPU :=
  match (List.range 15).find? (fun key => c.keyboard key) with
  | some key => setReg c x key
  | none => { c with pc := c.pc - 2 }

/-- Opcode `Fx15`. -/
def set_delay_timer (x : Nat) (c : CPU) : CPU :=
  { c with dt := c.registers x }

/-- Opcode `Fx18`. -/
def set_sound_timer (x : Nat) (c : CPU) : CPU :=
  { c with st := c.registers x }

/-- Opcode `Fx1E`. -/
def add_to_i_register (x : Nat) (c : CPU) : CPU :=
  { c with i := c.i + c.registers x }

/-- Opcode `Fx29`. -/
def get_digit_sprite_location (x : Nat) (c : CPU) : CPU :=
  { c with i := 5 * c.registers x }

/-- Binary scale of the IEEE-754 binary32 quotient `v / d` of two naturals
(`1 ≤ v/d`-normalising exponent): the smallest `k` with `d·2^23 ≤ v·2^k`,
so the correctly rounded quotient is a dyadic `m / 2^k` with
`2^23 ≤ m < 2^24` (24-bit significand). -/
def f32scale (v d : Nat) : Nat :=
  ((List.range 64).filter (fun k => d * 2 ^ 23 ≤ v * 2 ^ k)).headD 0

/-- Rust `f32` division `v as f32 / d as f32` of two exactly representable
naturals (`v, d < 2^24`): IEEE round-to-nearest, ties-to-even, returned as
a dyadic pair `(m, k)` whose value is `m / 2^k`. -/
def f32divDyadic (v d : Nat) : Nat × Nat :=
  if v = 0 then (0, 0) else
    let k := f32scale v d
    let m0 := v * 2 ^ k / d
    let rem := v * 2 ^ k % d
    let m :=
      if 2 * rem < d then m0
      else if d < 2 * rem then m0 + 1
      else if m0 % 2 = 0 then m0 else m0 + 1
    (m, k)

/-- The three decimal digits computed by `fn bcd_representation` for a byte
`v`, following the Rust `f32` computation: `(value/100.0).floor() as u8`,
`((value/10.0) % 10.0).floor() as u8` and `(value % 10.0) as u8`.  The two
divisions are correctly rounded per IEEE-754 (`f32divDyadic`); `f32` fmod
is exact (`(m/2^k) mod 10 = (m mod 10·2^k)/2^k`), and floor / `as u8`
truncation of a nonnegative dyadic `m / 2^k` is `m / 2^k` in `Nat`. -/
def bcdDigits (v : Nat) : Nat × Nat × Nat :=
  let p100 := f32divDyadic v 100
  let p10 := f32divDyadic v 10
  (p100.1 / 2 ^ p100.2, p10.1 % (10 * 2 ^ p10.2) / 2 ^ p10.2, v % 10)

/-- Opcode `Fx33` (`fn bcd_representation`): store the `f32`-computed
hundreds, tens and ones digits of `Vx` at `I`, `I+1`, `I+2`. -/
def bcd_representation (x : Nat) (c : CPU) : CPU :=
  let d := bcdDigits (c.registers x)
  setMem (setMem (setMem c c.i d.1) (c.i + 1) d.2.1) (c.i + 2) d.2.2

/-- Opcode `Fx55`. -/
def copy_registers_to_memory (x : Nat) (c : CPU) : CPU :=
  (List.range (x + 1)).foldl (fun acc count =>
    setMem acc (acc.i + count) (acc.registers count)) c

/-- Opcode `Fx65`. -/
def copy_memory_into_registers (x : Nat) (c : CPU) : CPU :=
  (List.range (x + 1)).foldl (fun acc count =>
    setReg acc count (acc.memory (acc.i + count))) c

/-- Decode-and-execute of `fn step` after the PC increment: the Rust
`match (digit1, digit2, digit3, digit4)` arms in source order, with the two
`println!` arms producing output strings. -/
def execInstr (d1 d2 d3 d4 byte1 byte2 rnd : Nat) (c : CPU) : CPU × List String :=
  if d1 = 0x0 ∧ d2 = 0x0 ∧ d3 = 0xE ∧ d4 = 0x0 then (clear c, [])
  else if d1 = 0x0 ∧ d2 = 0x0 ∧ d3 = 0xE ∧ d4 = 0xE then (ret c, [])
  else if d1 = 0x1 then (jump (concat_digits d2 d3 d4) c, [])
  else if d1 = 0x2 then (call (concat_digits d2 d3 d4) c, [])
  else if d1 = 0x3 then (skip_if_equal d2 byte2 c, [])
  else if d1 = 0x4 then (skip_if_not_equal d2 byte2 c, [])
  else if d1 = 0x5 ∧ d4 = 0x0 then (skip_if_registers_equal d2 d3 c, [])
  else if d1 = 0x6 then (copy_into_register d2 byte2 c, [])
  else if d1 = 0x7 then (increment_register d2 byte2 c, [])
  else if d1 = 0x8 ∧ d4 = 0x0 then (copy_register d2 d3 c, [])
  else if d1 = 0x8 ∧ d4 = 0x1 then (or_registers d2 d3 c, [])
  else if d1 = 0x8 ∧ d4 = 0x2 then (and_registers d2 d3 c, [])
  else if d1 = 0x8 ∧ d4 = 0x3 then (xor_registers d2 d3 c, [])
  else if d1 = 0x8 ∧ d4 = 0x4 then (add_registers d2 d3 c, [])
  else if d1 = 0x8 ∧ d4 = 0x5 then (subtract_registers d2 d3 c, [])
  else if d1 = 0x8 ∧ d4 = 0x6 then (right_shift_register d2 c, [])
  else if d1 = 0x8 ∧ d4 = 0x7 then (subtract_numeric_registers d2 d3 c, [])
  else if d1 = 0x8 ∧ d4 = 0xE then (left_shift_register d2 c, [])
  else if d1 = 0x9 ∧ d4 = 0x0 then (skip_if_registers_not_equal d2 d3 c, [])
  else if d1 = 0xA then (copy_into_i_register (concat_digits d2 d3 d4) c, [])
  else if d1 = 0xB then (offset_register_jump (concat_digits d2 d3 d4) c, [])
  else if d1 = 0xC then (generate_random_value d2 byte2 rnd c, [])
  else if d1 = 0xD then (draw d2 d3 d4 c, [])
  else if d1 = 0xE ∧ d3 = 0x9 ∧ d4 = 0xE then (skip_if_key_pressed d2 c, [])
  else if d1 = 0xE ∧ d3 = 0xA ∧ d4 = 0x1 then (skip_if_key_not_pressed d2 c, [])
  else if d1 = 0xF ∧ d3 = 0x0 ∧ d4 = 0x7 then (copy_dt_into_register d2 c, [])
  else if d1 = 0xF ∧ d3 = 0x0 ∧ d4 = 0xA then (wait_for_key_press d2 c, [])
  else if d1 = 0xF ∧ d3 = 0x1 ∧ d4 = 0x5 then (set_delay_timer d2 c, [])
  else if d1 = 0xF ∧ d3 = 0x1 ∧ d4 = 0x8 then (set_sound_timer d2 c, [])
  else if d1 = 0xF ∧ d3 = 0x1 ∧ d4 = 0xE then (add_to_i_register d2 c, [])
  else if d1 = 0xF ∧ d3 = 0x2 ∧ d4 = 0x9 then (get_digit_sprite_location d2 c, [])
  else if d1 = 0xF ∧ d3 = 0x3 ∧ d4 = 0x3 then (bcd_representation d2 c, [])
  else if d1 = 0xF ∧ d3 = 0x5 ∧ d4 = 0x5 then (copy_registers_to_memory d2 c, [])
  else if d1 = 0xF ∧ d3 = 0x6 ∧ d4 = 0x5 then (copy_memory_into_registers d2 c, [])
  else if d1 = 0xF ∧ d2 = 0xF ∧ d3 = 0xF ∧ d4 = 0xF then (c, ["Reached end"])
  else (c, ["Error: illegal instruction " ++ toString byte1 ++ toString byte2])

/-- `fn step`: fetch the two bytes at `PC`, split into four nibbles,
advance `PC` by 2, then dispatch.  The second component of the result is
the standard output the call produces. -/
def step (rnd : Nat) (c : CPU) : CPU × List String :=
  let byte1 := c.memory c.pc
  let byte2 := c.memory (c.pc + 1)
  let digit1 := byte1 / 16
  let digit2 := byte1 % 16
  let digit3 := byte2 / 16
  let digit4 := byte2 % 16
  execInstr digit1 digit2 digit3 digit4 byte1 byte2 rnd { c with pc := c.pc + 2 }

/-- True exactly when the four nibbles match one of the dispatch arms of
`fn step` (the `FFFF` debug arm included); its negation is the wildcard
"illegal instruction" arm. -/
def knownPattern (d1 d2 d3 d4 : Nat) : Bool :=
  (d1 == 0x0 && d2 == 0x0 && d3 == 0xE && d4 == 0x0) ||
    (d1 == 0x0 && d2 == 0x0 && d3 == 0xE && d4 == 0xE) ||
    d1 == 0x1 || d1 == 0x2 || d1 == 0x3 || d1 == 0x4 ||
    (d1 == 0x5 && d4 == 0x0) || d1 == 0x6 || d1 == 0x7 ||
    (d1 == 0x8 && d4 == 0x0) || (d1 == 0x8 && d4 == 0x1) ||
    (d1 == 0x8 && d4 == 0x2) || (d1 == 0x8 && d4 == 0x3) ||
    (d1 == 0x8 && d4 == 0x4) || (d1 == 0x8 && d4 == 0x5) ||
    (d1 == 0x8 && d4 == 0x6) || (d1 == 0x8 && d4 == 0x7) ||
    (d1 == 0x8 && d4 == 0xE) || (d1 == 0x9 && d4 == 0x0) ||
    d1 == 0xA || d1 == 0xB || d1 == 0xC || d1 == 0xD ||
    (d1 == 0xE && d3 == 0x9 && d4 == 0xE) || (d1 == 0xE && d3 == 0xA && d4 == 0x1) ||
    (d1 == 0xF && d3 == 0x0 && d4 == 0x7) || (d1 == 0xF && d3 == 0x0 && d4 == 0xA) ||
    (d1 == 0xF && d3 == 0x1 && d4 == 0x5) || (d1 == 0xF && d3 == 0x1 && d4 == 0x8) ||
    (d1 == 0xF && d3 == 0x1 && d4 == 0xE) || (d1 == 0xF && d3 == 0x2 && d4 == 0x9) ||
    (d1 == 0xF && d3 == 0x3 && d4 == 0x3) || (d1 == 0xF && d3 == 0x5 && d4 == 0x5) ||
    (d1 == 0xF && d3 == 0x6 && d4 == 0x5) ||
    (d1 == 0xF && d2 == 0xF && d3 == 0xF && d4 == 0xF)

/-! ### Concrete states used to instantiate the theorems -/

/-- All-zero machine state with the PC at the reset address `0x200`. -/
def cpu0 : CPU where
  memory := fun _ => 0
  registers := fun _ => 0
  i := 0
  dt := 0
  st := 0
  pc := 0x200
  sp := 0
  stack := fun _ => 0
  screen := fun _ _ => false
  keyboard := fun _ => false

/-- State with `V1 = 200`, `V2 = 100`. -/
def cpuAdd : CPU :=
  { cpu0 with registers := fun r => if r = 1 then 200 else if r = 2 then 100 else 0 }

/-- State with `VF = 200`, `V2 = 100`. -/
def cpuVF : CPU :=
  { cpu0 with registers := fun r => if r = 15 then 200 else if r = 2 then 100 else 0 }

/-- State with `V0 = 157` and `I = 0x300`. -/
def cpuBCD : CPU :=
  { cpu0 with registers := fun r => if r = 0 then 157 else 0, i := 0x300 }

/-- State with `V1 = 60`, `V2 = 0`, `I = 0x300`, a sprite byte `0xFF` at
`0x300` and screen row 0 fully lit. -/
def cpuDraw : CPU :=
  { cpu0 with
      registers := fun r => if r = 1 then 60 else 0,
      i := 0x300,
      memory := fun a => if a = 0x300 then 0xFF else 0,
      screen := fun r _ => decide (r = 0) }

/-- State whose next instruction is `F00A` (wait for key into `V0`), with
only key `0xF` pressed. -/
def cpuWait : CPU :=
  { cpu0 with
      memory := fun a => if a = 0x200 then 0xF0 else if a = 0x201 then 0x0A else 0,
      keyboard := fun k => decide (k = 15) }

/-! ### Generic lemmas -/

set_option maxRecDepth 100000

/-- A projection that every step of a fold preserves is preserved by the
whole fold. -/
theorem foldl_proj {β : Sort _} (g : CPU → β) (f : CPU → Nat → CPU)
    (hf : ∀ a n, g (f a n) = g a) :
    ∀ (l : List Nat) (a : CPU), g (l.foldl f a) = g a := by
  intro l
  induction l with
  | nil => intro a; rfl
  | cons b t ih => intro a; rw [List.foldl_cons, ih, hf]

/-- On every byte, the `f32` BCD digit extraction of the code agrees with
the integer decimal decomposition. -/
theorem bcdDigits_table :
    ∀ v : Nat, v < 256 → bcdDigits v = (v / 100, v / 10 % 10, v % 10) := by
  decide

/-- Format-as-hex-and-reparse equals arithmetic concatenation of three
4-bit fields. -/
theorem concat_digits_table :
    ∀ a < 16, ∀ b < 16, ∀ c < 16, concat_digits a b c = a * 256 + b * 16 + c := by
  decide

/-! ### C3: register-register add -/

/-- C3: the `8xy4` add stores `(Vx + Vy) mod 256` into `Vx` and sets `VF`
to 1 exactly when `Vx + Vy ≥ 256`, the flag being written after the result
(so the flag is what remains when `x = 0xF`). -/
theorem add_registers_mod256_carry (c : CPU) (x y : Nat) (hx : x < 16) (hy : y < 16)
    (ha : c.registers x < 256) (hb : c.registers y < 256) :
    (x ≠ 15 → (add_registers x y c).registers x = (c.registers x + c.registers y) % 256) ∧
    (add_registers x y c).registers 15 =
      (if 256 ≤ c.registers x + c.registers y then 1 else 0) := by
  unfold add_registers setReg
  constructor
  · intro hne
    simp [Function.update_noteq hne, Function.update_same]
  · simp [Function.update_same]

/-- Witness for `add_registers_mod256_carry`: 200 + 100 wraps to 44 with
carry 1. -/
theorem add_registers_mod256_carry_witness :
    (1 : Nat) < 16 ∧ (2 : Nat) < 16 ∧
      cpuAdd.registers 1 < 256 ∧ cpuAdd.registers 2 < 256 ∧
      ((1 ≠ 15 → (add_registers 1 2 cpuAdd).registers 1 =
          (cpuAdd.registers 1 + cpuAdd.registers 2) % 256) ∧
        (add_registers 1 2 cpuAdd).registers 15 =
          (if 256 ≤ cpuAdd.registers 1 + cpuAdd.registers 2 then 1 else 0)) :=
  ⟨by decide, by decide, by decide, by decide,
    add_registers_mod256_carry cpuAdd 1 2 (by decide) (by decide) (by decide) (by decide)⟩

/-! ### C4: flag write wins when the destination is VF -/

/-- C4: for the five result-plus-flag instructions (`8xy4`, `8xy5`, `8xy7`,
`8xy6`, `8xyE`), when the destination register is `0xF` the final `VF` is
the flag (carry / not-borrow / shifted-out bit) computed from the original
operands, not the arithmetic result: the flag write comes last and wins. -/
theorem flag_write_wins_on_vf (c : CPU) (y : Nat) (hy : y < 16)
    (ha : c.registers 15 < 256) (hb : c.registers y < 256) :
    (add_registers 15 y c).registers 15 =
      (if 256 ≤ c.registers 15 + c.registers y then 1 else 0) ∧
    (subtract_registers 15 y c).registers 15 =
      (if c.registers 15 < c.registers y then 0 else 1) ∧
    (subtract_numeric_registers 15 y c).registers 15 =
      (if c.registers y < c.registers 15 then 0 else 1) ∧
    (right_shift_register 15 c).registers 15 = c.registers 15 % 2 ∧
    (left_shift_register 15 c).registers 15 =
      (if c.registers 15 / 128 % 2 = 1 then 1 else 0) := by
  have hmsb : ∀ v : Nat, v < 256 → ((v &&& 128 = 128) ↔ v / 128 % 2 = 1) := by decide
  refine ⟨?_, ?_, ?_, ?_, ?_⟩
  · unfold add_registers setReg
    simp [Function.update_same]
  · unfold subtract_registers setReg
    simp [Function.update_same]
  · unfold subtract_numeric_registers setReg
    simp [Function.update_same]
  · unfold right_shift_register setReg
    simp [Function.update_same, Nat.and_one_is_mod]
  · unfold left_shift_register setReg
    simp only [Function.update_same]
    rcases hmsb _ ha with h
    split_ifs <;> simp_all

/-- Witness for `flag_write_wins_on_vf`, with `VF = 200` and `V2 = 100`
(carry 1, no borrow, borrow, shifted-out bit 0, top bit 1). -/
theorem flag_write_wins_on_vf_witness :
    (2 : Nat) < 16 ∧ cpuVF.registers 15 < 256 ∧ cpuVF.registers 2 < 256 ∧
      ((add_registers 15 2 cpuVF).registers 15 =
          (if 256 ≤ cpuVF.registers 15 + cpuVF.registers 2 then 1 else 0) ∧
        (subtract_registers 15 2 cpuVF).registers 15 =
          (if cpuVF.registers 15 < cpuVF.registers 2 then 0 else 1) ∧
        (subtract_numeric_registers 15 2 cpuVF).registers 15 =
          (if cpuVF.registers 2 < cpuVF.registers 15 then 0 else 1) ∧
        (right_shift_register 15 cpuVF).registers 15 = cpuVF.registers 15 % 2 ∧
        (left_shift_register 15 cpuVF).registers 15 =
          (if cpuVF.registers 15 / 128 % 2 = 1 then 1 else 0)) :=
  ⟨by decide, by decide, by decide,
    flag_write_wins_on_vf cpuVF 2 (by decide) (by decide) (by decide)⟩

/-! ### C5: BCD decomposition -/

/-- C5: the `Fx33` BCD instruction stores the hundreds digit of `Vx` at
`memory[I]`, the tens digit at `I+1` and the ones digit at `I+2` — exactly
the integer decimal decomposition of the byte, despite the `f32` detour. -/
theorem bcd_stores_decimal_digits (c : CPU) (x : Nat) (hx : x < 16)
    (hv : c.registers x < 256) (hI : c.i + 2 < 4096) :
    (bcd_representation x c).memory c.i = c.registers x / 100 ∧
    (bcd_representation x c).memory (c.i + 1) = c.registers x / 10 % 10 ∧
    (bcd_representation x c).memory (c.i + 2) = c.registers x % 10 := by
  have h := bcdDigits_table (c.registers x) hv
  have h1 : c.i ≠ c.i + 1 := by omega
  have h2 : c.i ≠ c.i + 2 := by omega
  have h3 : c.i + 1 ≠ c.i + 2 := by omega
  unfold bcd_representation setMem
  rw [h]
  refine ⟨?_, ?_, ?_⟩ <;>
    simp [Function.update_noteq, Function.update_same, h1, h2, h3,
      (h1 ∘ Eq.symm), (h2 ∘ Eq.symm), (h3 ∘ Eq.symm)]

/-- Witness for `bcd_stores_decimal_digits`: `V0 = 157` yields `(1,5,7)`
at `I, I+1, I+2`. -/
theorem bcd_stores_decimal_digits_witness :
    (0 : Nat) < 16 ∧ cpuBCD.registers 0 < 256 ∧ cpuBCD.i + 2 < 4096 ∧
      ((bcd_representation 0 cpuBCD).memory cpuBCD.i = 1 ∧
        (bcd_representation 0 cpuBCD).memory (cpuBCD.i + 1) = 5 ∧
        (bcd_representation 0 cpuBCD).memory (cpuBCD.i + 2) = 7) := by
  have h := bcd_stores_decimal_digits cpuBCD 0 (by decide) (by decide) (by decide)
  exact ⟨by decide, by decide, by decide, by
    rw [h.1, h.2.1, h.2.2]; exact ⟨by decide, by decide, by decide⟩⟩

/-! ### C8: address concatenation -/

/-- C8: the hex-string-based `concat_digits` agrees with the direct
arithmetic concatenation `a*256 + b*16 + c` on every triple of 4-bit
fields. -/
theorem concat_digits_eq_arith (a b c : Nat) (ha : a < 16) (hb : b < 16) (hc : c < 16) :
    concat_digits a b c = a * 256 + b * 16 + c :=
  concat_digits_table a ha b hb c hc

/-- Witness for `concat_digits_eq_arith`: `(0xF, 0xA, 0x7) ↦ 0xFA7`. -/
theorem concat_digits_eq_arith_witness :
    (0xF : Nat) < 16 ∧ (0xA : Nat) < 16 ∧ (0x7 : Nat) < 16 ∧
      concat_digits 0xF 0xA 0x7 = 0xF * 256 + 0xA * 16 + 0x7 :=
  ⟨by decide, by decide, by decide,
    concat_digits_eq_arith 0xF 0xA 0x7 (by decide) (by decide) (by decide)⟩

/-! ### C10: draw with height nibble 0 -/

/-- C10: executing the draw handler with height nibble `n = 0` zeroes `VF`
and changes nothing else: every other register, every framebuffer cell,
all memory and every remaining state component are untouched. -/
theorem draw_zero_height_only_clears_vf (c : CPU) (x y : Nat) :
    (draw x y 0 c).registers 15 = 0 ∧
    (∀ r : Nat, (draw x y 0 c).registers r = if r = 15 then 0 else c.registers r) ∧
    (draw x y 0 c).screen = c.screen ∧
    (draw x y 0 c).memory = c.memory ∧
    (draw x y 0 c).i = c.i ∧
    (draw x y 0 c).pc = c.pc ∧
    (draw x y 0 c).sp = c.sp ∧
    (draw x y 0 c).stack = c.stack ∧
    (draw x y 0 c).dt = c.dt ∧
    (draw x y 0 c).st = c.st ∧
    (draw x y 0 c).keyboard = c.keyboard := by
  have h : draw x y 0 c = setReg c 15 0 := rfl
  rw [h]
  unfold setReg
  refine ⟨by simp [Function.update_same], fun r => ?_, rfl, rfl, rfl, rfl, rfl, rfl, rfl, rfl, rfl⟩
  by_cases hr : r = 15
  · subst hr
    simp [Function.update_same]
  · simp [hr, Function.update_noteq hr]

/-! ### C1: wait-for-key never sees key 0xF (code bug) -/

/-- C1 (bug exhibit): on `cpuWait`, whose next instruction is `F00A` and
where key `0xF` is the only key pressed, `step` leaves `V0` unchanged and
rewinds the PC onto the same instruction — the Rust scan `for key in
0..0xF` stops at key 14 and never tests key 15.  Pressing key 14 instead
is detected: `V0` receives 14 and the PC stays advanced past the
instruction. -/
theorem wait_for_key_misses_key_f :
    ((step 0 cpuWait).1.pc = 0x200 ∧ (step 0 cpuWait).1.registers 0 = 0 ∧
      cpuWait.keyboard 15 = true) ∧
    ((step 0 { cpuWait with keyboard := fun k => decide (k = 14) }).1.pc = 0x202 ∧
      (step 0 { cpuWait with keyboard := fun k => decide (k = 14) }).1.registers 0 = 14) := by
  refine ⟨⟨?_, ?_, ?_⟩, ?_, ?_⟩ <;> decide

/-! ### Keyboard invariance of every instruction handler -/

theorem setReg_keyboard (c : CPU) (x v : Nat) : (setReg c x v).keyboard = c.keyboard := rfl

theorem setMem_keyboard (c : CPU) (a v : Nat) : (setMem c a v).keyboard = c.keyboard := rfl

theorem setScreen_keyboard (c : CPU) (y x : Nat) (v : Bool) :
    (setScreen c y x v).keyboard = c.keyboard := rfl

theorem clear_keyboard (c : CPU) : (clear c).keyboard = c.keyboard := rfl

theorem ret_keyboard (c : CPU) : (ret c).keyboard = c.keyboard := rfl

theorem jump_keyboard (a : Nat) (c : CPU) : (jump a c).keyboard = c.keyboard := rfl

theorem call_keyboard (a : Nat) (c : CPU) : (call a c).keyboard = c.keyboard := rfl

theorem skip_if_equal_keyboard (x kk : Nat) (c : CPU) :
    (skip_if_equal x kk c).keyboard = c.keyboard := by
  unfold skip_if_equal; split <;> rfl

theorem skip_if_not_equal_keyboard (x kk : Nat) (c : CPU) :
    (skip_if_not_equal x kk c).keyboard = c.keyboard := by
  unfold skip_if_not_equal; split <;> rfl

theorem skip_if_registers_equal_keyboard (x y : Nat) (c : CPU) :
    (skip_if_registers_equal x y c).keyboard = c.keyboard := by
  unfold skip_if_registers_equal; split <;> rfl

theorem skip_if_registers_not_equal_keyboard (x y : Nat) (c : CPU) :
    (skip_if_registers_not_equal x y c).keyboard = c.keyboard := by
  unfold skip_if_registers_not_equal; split <;> rfl

theorem drawPixel_keyboard (byte sx ypos : Nat) (c : CPU) (xi : Nat) :
    (drawPixel byte sx ypos c xi).keyboard = c.keyboard := by
  unfold drawPixel setScreen setReg
  dsimp only
  split <;> rfl

theorem draw_keyboard (x y n : Nat) (c : CPU) : (draw x y n c).keyboard = c.keyboard := by
  unfold draw
  exact foldl_proj CPU.keyboard _
    (fun a line => foldl_proj CPU.keyboard _
      (fun a' xi => drawPixel_keyboard _ _ _ _ _) _ _) _ _

theorem skip_if_key_pressed_keyboard (x : Nat) (c : CPU) :
    (skip_if_key_pressed x c).keyboard = c.keyboard := by
  unfold skip_if_key_pressed; split <;> rfl

theorem skip_if_key_not_pressed_keyboard (x : Nat) (c : CPU) :
    (skip_if_key_not_pressed x c).keyboard = c.keyboard := by
  unfold skip_if_key_not_pressed; split <;> rfl

theorem wait_for_key_press_keyboard (x : Nat) (c : CPU) :
    (wait_for_key_press x c).keyboard = c.keyboard := by
  unfold wait_for_key_press
  split <;> rfl

theorem bcd_representation_keyboard (x : Nat) (c : CPU) :
    (bcd_representation x c).keyboard = c.keyboard := rfl

theorem copy_registers_to_memory_keyboard (x : Nat) (c : CPU) :
    (copy_registers_to_memory x c).keyboard = c.keyboard := by
  unfold copy_registers_to_memory
  exact foldl_proj CPU.keyboard _ (fun a k => setMem_keyboard a (a.i + k) (a.registers k)) _ _

theorem copy_memory_into_registers_keyboard (x : Nat) (c : CPU) :
    (copy_memory_into_registers x c).keyboard = c.keyboard := by
  unfold copy_memory_into_registers
  exact foldl_proj CPU.keyboard _ (fun a k => setReg_keyboard a k (a.memory (a.i + k))) _ _

/-! ### C9: step never writes the key state -/

theorem ite_fst_keyboard (P : Prop) [Decidable P] (a b : CPU × List String) :
    ((if P then a else b).1).keyboard = if P then a.1.keyboard else b.1.keyboard := by
  split <;> rfl

set_option maxHeartbeats 1000000

theorem execInstr_keyboard (d1 d2 d3 d4 b1 b2 rnd : Nat) (c : CPU) :
    (execInstr d1 d2 d3 d4 b1 b2 rnd c).1.keyboard = c.keyboard := by
  simp only [execInstr, ite_fst_keyboard, ite_self,
      clear_keyboard, ret_keyboard, jump_keyboard, call_keyboard,
      skip_if_equal_keyboard, skip_if_not_equal_keyboard,
      skip_if_registers_equal_keyboard, skip_if_registers_not_equal_keyboard,
      copy_into_register, increment_register, copy_register, or_registers,
      and_registers, xor_registers, add_registers, subtract_registers,
      right_shift_register, subtract_numeric_registers, left_shift_register,
      copy_into_i_register, offset_register_jump, generate_random_value,
      draw_keyboard, skip_if_key_pressed_keyboard, skip_if_key_not_pressed_keyboard,
      copy_dt_into_register, wait_for_key_press_keyboard, set_delay_timer,
      set_sound_timer, add_to_i_register, get_digit_sprite_location,
      bcd_representation_keyboard, copy_registers_to_memory_keyboard,
      copy_memory_into_registers_keyboard, setReg_keyboard]

/-- C9: one `step` call leaves the 16-key state unchanged for every state
and random byte: every handler (the key skips and the key wait included)
only reads the keyboard; only `update_key` writes it. -/
theorem step_preserves_keyboard (rnd : Nat) (c : CPU) :
    (step rnd c).1.keyboard = c.keyboard := by
  unfold step
  exact execInstr_keyboard (c.memory c.pc / 16) (c.memory c.pc % 16)
    (c.memory (c.pc + 1) / 16) (c.memory (c.pc + 1) % 16)
    (c.memory c.pc) (c.memory (c.pc + 1)) rnd { c with pc := c.pc + 2 }

/-! ### C6: illegal instructions -/

theorem execInstr_illegal (d1 d2 d3 d4 b1 b2 rnd : Nat) (cpu : CPU)
    (h : knownPattern d1 d2 d3 d4 = false) :
    execInstr d1 d2 d3 d4 b1 b2 rnd cpu =
      (cpu, ["Error: illegal instruction " ++ toString b1 ++ toString b2]) := by
  have n1 : ¬(d1 = 0x0 ∧ d2 = 0x0 ∧ d3 = 0xE ∧ d4 = 0x0) := fun e => by
    obtain ⟨e1, e2, e3, e4⟩ := e; subst e1; subst e2; subst e3; subst e4
    simp [knownPattern] at h
  have n2 : ¬(d1 = 0x0 ∧ d2 = 0x0 ∧ d3 = 0xE ∧ d4 = 0xE) := fun e => by
    obtain ⟨e1, e2, e3, e4⟩ := e; subst e1; subst e2; subst e3; subst e4
    simp [knownPattern] at h
  have n3 : ¬(d1 = 0x1) := fun e => by subst e; simp [knownPattern] at h
  have n4 : ¬(d1 = 0x2) := fun e => by subst e; simp [knownPattern] at h
  have n5 : ¬(d1 = 0x3) := fun e => by subst e; simp [knownPattern] at h
  have n6 : ¬(d1 = 0x4) := fun e => by subst e; simp [knownPattern] at h
  have n7 : ¬(d1 = 0x5 ∧ d4 = 0x0) := fun e => by
    obtain ⟨e1, e2⟩ := e; subst e1; subst e2; simp [knownPattern] at h
  have n8 : ¬(d1 = 0x6) := fun e => by subst e; simp [knownPattern] at h
  have n9 : ¬(d1 = 0x7) := fun e => by subst e; simp [knownPattern] at h
  have n10 : ¬(d1 = 0x8 ∧ d4 = 0x0) := fun e => by
    obtain ⟨e1, e2⟩ := e; subst e1; subst e2; simp [knownPattern] at h
  have n11 : ¬(d1 = 0x8 ∧ d4 = 0x1) := fun e => by
    obtain ⟨e1, e2⟩ := e; subst e1; subst e2; simp [knownPattern] at h
  have n12 : ¬(d1 = 0x8 ∧ d4 = 0x2) := fun e => by
    obtain ⟨e1, e2⟩ := e; subst e1; subst e2; simp [knownPattern] at h
  have n13 : ¬(d1 = 0x8 ∧ d4 = 0x3) := fun e => by
    obtain ⟨e1, e2⟩ := e; subst e1; subst e2; simp [knownPattern] at h
  have n14 : ¬(d1 = 0x8 ∧ d4 = 0x4) := fun e => by
    obtain ⟨e1, e2⟩ := e; subst e1; subst e2; simp [knownPattern] at h
  have n15 : ¬(d1 = 0x8 ∧ d4 = 0x5) := fun e => by
    obtain ⟨e1, e2⟩ := e; subst e1; subst e2; simp [knownPattern] at h
  have n16 : ¬(d1 = 0x8 ∧ d4 = 0x6) := fun e => by
    obtain ⟨e1, e2⟩ := e; subst e1; subst e2; simp [knownPattern] at h
  have n17 : ¬(d1 = 0x8 ∧ d4 = 0x7) := fun e => by
    obtain ⟨e1, e2⟩ := e; subst e1; subst e2; simp [knownPattern] at h
  have n18 : ¬(d1 = 0x8 ∧ d4 = 0xE) := fun e => by
    obtain ⟨e1, e2⟩ := e; subst e1; subst e2; simp [knownPattern] at h
  have n19 : ¬(d1 = 0x9 ∧ d4 = 0x0) := fun e => by
    obtain ⟨e1, e2⟩ := e; subst e1; subst e2; simp [knownPattern] at h
  have n20 : ¬(d1 = 0xA) := fun e => by subst e; simp [knownPattern] at h
  have n21 : ¬(d1 = 0xB) := fun e => by subst e; simp [knownPattern] at h
  have n22 : ¬(d1 = 0xC) := fun e => by subst e; simp [knownPattern] at h
  have n23 : ¬(d1 = 0xD) := fun e => by subst e; simp [knownPattern] at h
  have n24 : ¬(d1 = 0xE ∧ d3 = 0x9 ∧ d4 = 0xE) := fun e => by
    obtain ⟨e1, e2, e3⟩ := e; subst e1; subst e2; subst e3; simp [knownPattern] at h
  have n25 : ¬(d1 = 0xE ∧ d3 = 0xA ∧ d4 = 0x1) := fun e => by
    obtain ⟨e1, e2, e3⟩ := e; subst e1; subst e2; subst e3; simp [knownPattern] at h
  have n26 : ¬(d1 = 0xF ∧ d3 = 0x0 ∧ d4 = 0x7) := fun e => by
    obtain ⟨e1, e2, e3⟩ := e; subst e1; subst e2; subst e3; simp [knownPattern] at h
  have n27 : ¬(d1 = 0xF ∧ d3 = 0x0 ∧ d4 = 0xA) := fun e => by
    obtain ⟨e1, e2, e3⟩ := e; subst e1; subst e2; subst e3; simp [knownPattern] at h
  have n28 : ¬(d1 = 0xF ∧ d3 = 0x1 ∧ d4 = 0x5) := fun e => by
    obtain ⟨e1, e2, e3⟩ := e; subst e1; subst e2; subst e3; simp [knownPattern] at h
  have n29 : ¬(d1 = 0xF ∧ d3 = 0x1 ∧ d4 = 0x8) := fun e => by
    obtain ⟨e1, e2, e3⟩ := e; subst e1; subst e2; subst e3; simp [knownPattern] at h
  have n30 : ¬(d1 = 0xF ∧ d3 = 0x1 ∧ d4 = 0xE) := fun e => by
    obtain ⟨e1, e2, e3⟩ := e; subst e1; subst e2; subst e3; simp [knownPattern] at h
  have n31 : ¬(d1 = 0xF ∧ d3 = 0x2 ∧ d4 = 0x9) := fun e => by
    obtain ⟨e1, e2, e3⟩ := e; subst e1; subst e2; subst e3; simp [knownPattern] at h
  have n32 : ¬(d1 = 0xF ∧ d3 = 0x3 ∧ d4 = 0x3) := fun e => by
    obtain ⟨e1, e2, e3⟩ := e; subst e1; subst e2; subst e3; simp [knownPattern] at h
  have n33 : ¬(d1 = 0xF ∧ d3 = 0x5 ∧ d4 = 0x5) := fun e => by
    obtain ⟨e1, e2, e3⟩ := e; subst e1; subst e2; subst e3; simp [knownPattern] at h
  have n34 : ¬(d1 = 0xF ∧ d3 = 0x6 ∧ d4 = 0x5) := fun e => by
    obtain ⟨e1, e2, e3⟩ := e; subst e1; subst e2; subst e3; simp [knownPattern] at h
  have n35 : ¬(d1 = 0xF ∧ d2 = 0xF ∧ d3 = 0xF ∧ d4 = 0xF) := fun e => by
    obtain ⟨e1, e2, e3, e4⟩ := e; subst e1; subst e2; subst e3; subst e4
    simp [knownPattern] at h
  unfold execInstr
  rw [if_neg n1, if_neg n2, if_neg n3, if_neg n4, if_neg n5, if_neg n6, if_neg n7,
    if_neg n8, if_neg n9, if_neg n10, if_neg n11, if_neg n12, if_neg n13, if_neg n14,
    if_neg n15, if_neg n16, if_neg n17, if_neg n18, if_neg n19, if_neg n20, if_neg n21,
    if_neg n22, if_neg n23, if_neg n24, if_neg n25, if_neg n26, if_neg n27, if_neg n28,
    if_neg n29, if_neg n30, if_neg n31, if_neg n32, if_neg n33, if_neg n34, if_neg n35]

/-- C6: when the fetched word matches no dispatch pattern, `step` reports
the illegal instruction in its output (it is not silently skipped) and
mutates nothing: the resulting state is the input state with only the
program counter advanced by 2 — registers, memory, stack, timers, screen
and keyboard are all untouched. -/
theorem step_illegal_reports_and_only_advances_pc (rnd : Nat) (c : CPU)
    (h : knownPattern (c.memory c.pc / 16) (c.memory c.pc % 16)
        (c.memory (c.pc + 1) / 16) (c.memory (c.pc + 1) % 16) = false) :
    step rnd c =
      ({ c with pc := c.pc + 2 },
        ["Error: illegal instruction " ++ toString (c.memory c.pc) ++
          toString (c.memory (c.pc + 1))]) := by
  unfold step
  exact execInstr_illegal _ _ _ _ _ _ rnd _ h

/-- Witness for `step_illegal_reports_and_only_advances_pc`: the all-zero
word `0000` matches no pattern; stepping `cpu0` only advances the PC and
emits the error line. -/
theorem step_illegal_witness :
    knownPattern (cpu0.memory cpu0.pc / 16) (cpu0.memory cpu0.pc % 16)
        (cpu0.memory (cpu0.pc + 1) / 16) (cpu0.memory (cpu0.pc + 1) % 16) = false ∧
      step 0 cpu0 =
        ({ cpu0 with pc := cpu0.pc + 2 },
          ["Error: illegal instruction " ++ toString (cpu0.memory cpu0.pc) ++
            toString (cpu0.memory (cpu0.pc + 1))]) :=
  ⟨by decide, step_illegal_reports_and_only_advances_pc 0 cpu0 (by decide)⟩

/-! ### Draw characterization -/

theorem addMod_inj {d a j k : Nat} (hj : j < d) (hk : k < d)
    (h : (a + j) % d = (a + k) % d) : j = k := by
  have h2 : j ≡ k [MOD d] := Nat.ModEq.add_left_cancel' a h
  unfold Nat.ModEq at h2
  rw [Nat.mod_eq_of_lt hj, Nat.mod_eq_of_lt hk] at h2
  exact h2

theorem drawPixel_screen (byte sx ypos : Nat) (c : CPU) (xi r col : Nat) :
    (drawPixel byte sx ypos c xi).screen r col =
      if r = ypos ∧ col = (sx + xi) % 64
      then xor (c.screen ypos ((sx + xi) % 64)) (pix byte xi)
      else c.screen r col := by
  unfold drawPixel setScreen setReg
  dsimp only
  cases hcol : (pix byte xi && c.screen ypos ((sx + xi) % 64)) <;> simp [hcol]

theorem drawPixel_vf (byte sx ypos : Nat) (c : CPU) (xi : Nat) :
    (drawPixel byte sx ypos c xi).registers 15 =
      if pix byte xi && c.screen ypos ((sx + xi) % 64) then 1 else c.registers 15 := by
  unfold drawPixel setScreen setReg
  dsimp only
  split <;> simp_all [Function.update_same]

theorem drawPixel_registers_ne (byte sx ypos : Nat) (c : CPU) (xi r : Nat) (hr : r ≠ 15) :
    (drawPixel byte sx ypos c xi).registers r = c.registers r := by
  unfold drawPixel setScreen setReg
  dsimp only
  split
  · exact Function.update_noteq hr _ _
  · rfl

theorem drawPixel_memory (byte sx ypos : Nat) (c : CPU) (xi : Nat) :
    (drawPixel byte sx ypos c xi).memory = c.memory := by
  unfold drawPixel setScreen setReg
  dsimp only
  split <;> rfl

theorem drawPixel_i (byte sx ypos : Nat) (c : CPU) (xi : Nat) :
    (drawPixel byte sx ypos c xi).i = c.i := by
  unfold drawPixel setScreen setReg
  dsimp only
  split <;> rfl

theorem rowTog_fresh_col (byte sx ypos k : Nat) (hk : k < 64) :
    rowTog byte sx ypos k ypos ((sx + k) % 64) = false := by
  unfold rowTog
  simp only [beq_self_eq_true, Bool.true_and]
  rw [List.any_eq_false]
  intro j hj
  simp only [List.mem_range] at hj
  have hne : (sx + k) % 64 ≠ (sx + j) % 64 := fun he =>
    absurd (addMod_inj hk (by omega) he) (by omega)
  simp [beq_eq_false_iff_ne.mpr hne]

theorem rowTog_succ (byte sx ypos k r col : Nat) :
    rowTog byte sx ypos (k + 1) r col =
      (rowTog byte sx ypos k r col ||
        ((r == ypos) && ((col == (sx + k) % 64) && pix byte k))) := by
  unfold rowTog
  rw [List.range_succ, List.any_append]
  simp [Bool.and_or_distrib_left]

theorem rowHit_succ (scr : Nat → Nat → Bool) (byte sx ypos k : Nat) :
    rowHit scr byte sx ypos (k + 1) =
      (rowHit scr byte sx ypos k || (pix byte k && scr ypos ((sx + k) % 64))) := by
  unfold rowHit
  rw [List.range_succ, List.any_append]
  simp

theorem row_foldl_screen (byte sx ypos k : Nat) (a : CPU) (r col : Nat) : k ≤ 64 →
    ((List.range k).foldl (drawPixel byte sx ypos) a).screen r col =
      xor (a.screen r col) (rowTog byte sx ypos k r col) := by
  induction k with
  | zero =>
    intro _
    simp [rowTog]
  | succ k ih =>
    intro hk
    rw [List.range_succ, List.foldl_append]
    simp only [List.foldl_cons, List.foldl_nil]
    rw [drawPixel_screen, rowTog_succ]
    by_cases hc : r = ypos ∧ col = (sx + k) % 64
    · rw [if_pos hc]
      obtain ⟨hr, hcol⟩ := hc
      subst hr
      subst hcol
      rw [ih (by omega), rowTog_fresh_col byte sx r k (by omega)]
      simp
    · rw [if_neg hc, ih (by omega)]
      congr 1
      rcases Decidable.not_and_iff_or_not.mp hc with h1 | h2
      · simp [beq_eq_false_iff_ne.mpr h1]
      · simp [beq_eq_false_iff_ne.mpr h2]

theorem row_foldl_vf (byte sx ypos k : Nat) (a : CPU) : k ≤ 64 →
    ((List.range k).foldl (drawPixel byte sx ypos) a).registers 15 =
      (if rowHit a.screen byte sx ypos k then 1 else a.registers 15) := by
  induction k with
  | zero =>
    intro _
    simp [rowHit]
  | succ k ih =>
    intro hk
    rw [List.range_succ, List.foldl_append]
    simp only [List.foldl_cons, List.foldl_nil]
    rw [drawPixel_vf, ih (by omega), rowHit_succ,
      row_foldl_screen byte sx ypos k a ypos ((sx + k) % 64) (by omega),
      rowTog_fresh_col byte sx ypos k (by omega)]
    cases hA : rowHit a.screen byte sx ypos k <;>
      cases hB : pix byte k && a.screen ypos ((sx + k) % 64) <;>
        simp [hA, hB]

theorem row_foldl_memory (byte sx ypos k : Nat) (a : CPU) :
    ((List.range k).foldl (drawPixel byte sx ypos) a).memory = a.memory :=
  foldl_proj CPU.memory _ (fun a' xi => drawPixel_memory byte sx ypos a' xi) _ _

theorem row_foldl_i (byte sx ypos k : Nat) (a : CPU) :
    ((List.range k).foldl (drawPixel byte sx ypos) a).i = a.i :=
  foldl_proj CPU.i _ (fun a' xi => drawPixel_i byte sx ypos a' xi) _ _

theorem row_foldl_registers_ne (byte sx ypos k : Nat) (a : CPU) (r : Nat) (hr : r ≠ 15) :
    ((List.range k).foldl (drawPixel byte sx ypos) a).registers r = a.registers r :=
  foldl_proj (fun c => c.registers r) _
    (fun a' xi => drawPixel_registers_ne byte sx ypos a' xi r hr) _ _

theorem drawRow_apply (sx sy : Nat) (a : CPU) (line : Nat) :
    drawRow sx sy a line =
      (List.range 8).foldl (drawPixel (a.memory (a.i + line)) sx ((sy + line) % 32)) a := rfl

theorem rows_foldl_memory (sx sy m : Nat) (c0 : CPU) :
    ((List.range m).foldl (drawRow sx sy) c0).memory = c0.memory :=
  foldl_proj CPU.memory _
    (fun a line => (drawRow_apply sx sy a line ▸ row_foldl_memory _ _ _ 8 a)) _ _

theorem rows_foldl_i (sx sy m : Nat) (c0 : CPU) :
    ((List.range m).foldl (drawRow sx sy) c0).i = c0.i :=
  foldl_proj CPU.i _
    (fun a line => (drawRow_apply sx sy a line ▸ row_foldl_i _ _ _ 8 a)) _ _

theorem rows_foldl_registers_ne (sx sy m : Nat) (c0 : CPU) (r : Nat) (hr : r ≠ 15) :
    ((List.range m).foldl (drawRow sx sy) c0).registers r = c0.registers r :=
  foldl_proj (fun c => c.registers r) _
    (fun a line => (drawRow_apply sx sy a line ▸ row_foldl_registers_ne _ _ _ 8 a r hr)) _ _

theorem sprTog_fresh_row (mem : Nat → Nat) (base sx sy m col : Nat) (hm : m < 32) :
    sprTog mem base sx sy m ((sy + m) % 32) col = false := by
  unfold sprTog
  rw [List.any_eq_false]
  intro line hline
  simp only [List.mem_range] at hline
  unfold rowTog
  have hne : (sy + m) % 32 ≠ (sy + line) % 32 := fun he =>
    absurd (addMod_inj hm (by omega) he) (by omega)
  simp [beq_eq_false_iff_ne.mpr hne]

theorem sprTog_succ (mem : Nat → Nat) (base sx sy m r col : Nat) :
    sprTog mem base sx sy (m + 1) r col =
      (sprTog mem base sx sy m r col ||
        rowTog (mem (base + m)) sx ((sy + m) % 32) 8 r col) := by
  unfold sprTog
  rw [List.range_succ, List.any_append]
  simp

theorem sprHit_succ (scr : Nat → Nat → Bool) (mem : Nat → Nat) (base sx sy m : Nat) :
    sprHit scr mem base sx sy (m + 1) =
      (sprHit scr mem base sx sy m ||
        rowHit scr (mem (base + m)) sx ((sy + m) % 32) 8) := by
  unfold sprHit
  rw [List.range_succ, List.any_append]
  simp

theorem rows_foldl_screen (sx sy m : Nat) (c0 : CPU) (r col : Nat) : m ≤ 32 →
    ((List.range m).foldl (drawRow sx sy) c0).screen r col =
      xor (c0.screen r col) (sprTog c0.memory c0.i sx sy m r col) := by
  induction m with
  | zero =>
    intro _
    simp [sprTog]
  | succ m ih =>
    intro hm
    rw [List.range_succ, List.foldl_append]
    simp only [List.foldl_cons, List.foldl_nil]
    rw [drawRow_apply, rows_foldl_memory, rows_foldl_i,
      row_foldl_screen _ _ _ 8 _ r col (by omega), ih (by omega),
      Bool.xor_assoc, sprTog_succ]
    congr 1
    cases hR : rowTog (c0.memory (c0.i + m)) sx ((sy + m) % 32) 8 r col
    · simp
    · have hr : r = (sy + m) % 32 := by
        unfold rowTog at hR
        simp only [Bool.and_eq_true, beq_iff_eq] at hR
        exact hR.1
      subst hr
      rw [sprTog_fresh_row c0.memory c0.i sx sy m col (by omega)]
      simp

theorem rows_foldl_vf (sx sy m : Nat) (c0 : CPU) : m ≤ 32 →
    ((List.range m).foldl (drawRow sx sy) c0).registers 15 =
      (if sprHit c0.screen c0.memory c0.i sx sy m then 1 else c0.registers 15) := by
  induction m with
  | zero =>
    intro _
    simp [sprHit]
  | succ m ih =>
    intro hm
    rw [List.range_succ, List.foldl_append]
    simp only [List.foldl_cons, List.foldl_nil]
    rw [drawRow_apply, rows_foldl_memory, rows_foldl_i,
      row_foldl_vf _ _ _ 8 _ (by omega), ih (by omega), sprHit_succ]
    have hcongr :
        rowHit ((List.range m).foldl (drawRow sx sy) c0).screen
            (c0.memory (c0.i + m)) sx ((sy + m) % 32) 8 =
          rowHit c0.screen (c0.memory (c0.i + m)) sx ((sy + m) % 32) 8 := by
      unfold rowHit
      congr 1
      funext j
      congr 1
      rw [rows_foldl_screen sx sy m c0 _ _ (by omega),
        sprTog_fresh_row c0.memory c0.i sx sy m ((sx + j) % 64) (by omega),
        Bool.xor_false]
    rw [hcongr]
    cases hA : sprHit c0.screen c0.memory c0.i sx sy m <;>
      cases hB : rowHit c0.screen (c0.memory (c0.i + m)) sx ((sy + m) % 32) 8 <;>
        simp [hA, hB]

/-- Full characterization of `fn draw` for heights up to 32 (every nibble
height qualifies): the screen is XOR-ed with the sprite toggle pattern and
`VF` becomes the collision indicator. -/
theorem draw_characterization (c : CPU) (x y n : Nat) (hn : n ≤ 32) :
    ((draw x y n c).screen = fun r col =>
        xor (c.screen r col)
          (sprTog c.memory c.i ((setReg c 15 0).registers x)
            ((setReg c 15 0).registers y) n r col)) ∧
    (draw x y n c).registers 15 =
      (if sprHit c.screen c.memory c.i ((setReg c 15 0).registers x)
          ((setReg c 15 0).registers y) n then 1 else 0) := by
  unfold draw
  dsimp only
  constructor
  · funext r col
    rw [rows_foldl_screen _ _ _ _ _ _ hn]
    rfl
  · rw [rows_foldl_vf _ _ _ _ hn]
    have h15 : (setReg c 15 0).registers 15 = 0 := by
      unfold setReg
      simp
    rw [h15]
    rfl

theorem draw_memory (x y n : Nat) (c : CPU) : (draw x y n c).memory = c.memory := by
  unfold draw
  dsimp only
  rw [rows_foldl_memory]
  rfl

theorem draw_i (x y n : Nat) (c : CPU) : (draw x y n c).i = c.i := by
  unfold draw
  dsimp only
  rw [rows_foldl_i]
  rfl

theorem draw_registers_ne (x y n : Nat) (c : CPU) (r : Nat) (hr : r ≠ 15) :
    (draw x y n c).registers r = c.registers r := by
  unfold draw
  dsimp only
  rw [rows_foldl_registers_ne _ _ _ _ r hr]
  exact Function.update_noteq hr _ _

theorem pix_eq_testBit : ∀ b, b < 256 → ∀ j, j < 8 → pix b j = b.testBit (7 - j) := by
  decide

theorem sprTog_at_target (mem : Nat → Nat) (base sx sy n r j : Nat)
    (hr : r < n) (hj : j < 8) (hn : n ≤ 32) :
    sprTog mem base sx sy n ((sy + r) % 32) ((sx + j) % 64) = pix (mem (base + r)) j := by
  cases hp : pix (mem (base + r)) j
  · unfold sprTog
    rw [List.any_eq_false]
    intro line hline
    simp only [List.mem_range] at hline
    intro htrue
    unfold rowTog at htrue
    rw [Bool.and_eq_true] at htrue
    obtain ⟨hrow, hany⟩ := htrue
    rw [List.any_eq_true] at hany
    obtain ⟨j', hj'mem, hj'⟩ := hany
    simp only [List.mem_range] at hj'mem
    rw [Bool.and_eq_true] at hj'
    have hlr : r = line := addMod_inj (by omega) (by omega) (eq_of_beq hrow)
    have hjj : j = j' := addMod_inj (by omega) (by omega) (eq_of_beq hj'.1)
    rw [← hlr, ← hjj] at hj'
    exact absurd hj'.2 (by simp [hp])
  · unfold sprTog
    rw [List.any_eq_true]
    refine ⟨r, by simp only [List.mem_range]; omega, ?_⟩
    unfold rowTog
    rw [Bool.and_eq_true]
    refine ⟨beq_self_eq_true _, ?_⟩
    rw [List.any_eq_true]
    refine ⟨j, by simp only [List.mem_range]; omega, ?_⟩
    rw [Bool.and_eq_true]
    exact ⟨beq_self_eq_true _, hp⟩

theorem sprTog_off (mem : Nat → Nat) (base sx sy n rr cc : Nat)
    (h : ∀ r j, r < n → j < 8 → ¬(rr = (sy + r) % 32 ∧ cc = (sx + j) % 64)) :
    sprTog mem base sx sy n rr cc = false := by
  unfold sprTog
  rw [List.any_eq_false]
  intro line hline
  simp only [List.mem_range] at hline
  intro htrue
  unfold rowTog at htrue
  rw [Bool.and_eq_true] at htrue
  obtain ⟨hrow, hany⟩ := htrue
  rw [List.any_eq_true] at hany
  obtain ⟨j, hjmem, hj⟩ := hany
  simp only [List.mem_range] at hjmem
  rw [Bool.and_eq_true] at hj
  exact h line j hline hjmem ⟨eq_of_beq hrow, eq_of_beq hj.1⟩

theorem sprHit_eq_true_iff (scr : Nat → Nat → Bool) (mem : Nat → Nat) (base sx sy n : Nat) :
    sprHit scr mem base sx sy n = true ↔
      ∃ r, r < n ∧ ∃ j, j < 8 ∧ (pix (mem (base + r)) j = true ∧
        scr ((sy + r) % 32) ((sx + j) % 64) = true) := by
  unfold sprHit rowHit
  simp only [List.any_eq_true, List.mem_range, Bool.and_eq_true]

/-! ### C2: the draw blit -/

/-- C2: for heights 1–15 and origin registers other than `VF`, the draw
instruction XORs sprite bit `j` (bit `7−j` of `memory[I+r]`, MSB =
column 0) into the wrapped cell `((Vy+r) mod 32, (Vx+j) mod 64)`; every
other cell is unchanged; and the final `VF` is 1 exactly when some
destination cell had its sprite bit set while already lit (0 otherwise,
`VF` having been reset first). -/
theorem draw_blit_wraparound_collision (c : CPU) (x y n : Nat)
    (hx : x < 16) (hy : y < 16) (hx15 : x ≠ 15) (hy15 : y ≠ 15)
    (hn1 : 1 ≤ n) (hn : n ≤ 15) (hmem : ∀ a, c.memory a < 256) :
    (∀ r j, r < n → j < 8 →
      (draw x y n c).screen ((c.registers y + r) % 32) ((c.registers x + j) % 64) =
        xor (c.screen ((c.registers y + r) % 32) ((c.registers x + j) % 64))
          ((c.memory (c.i + r)).testBit (7 - j))) ∧
    (∀ rr cc, (∀ r j, r < n → j < 8 →
        ¬(rr = (c.registers y + r) % 32 ∧ cc = (c.registers x + j) % 64)) →
      (draw x y n c).screen rr cc = c.screen rr cc) ∧
    (((draw x y n c).registers 15 = 1 ↔
        ∃ r, r < n ∧ ∃ j, j < 8 ∧ ((c.memory (c.i + r)).testBit (7 - j) = true ∧
          c.screen ((c.registers y + r) % 32) ((c.registers x + j) % 64) = true)) ∧
      ((draw x y n c).registers 15 = 0 ∨ (draw x y n c).registers 15 = 1)) := by
  have hsx : (setReg c 15 0).registers x = c.registers x := by
    unfold setReg
    exact Function.update_noteq hx15 _ _
  have hsy : (setReg c 15 0).registers y = c.registers y := by
    unfold setReg
    exact Function.update_noteq hy15 _ _
  have hchar := draw_characterization c x y n (by omega)
  rw [hsx, hsy] at hchar
  refine ⟨?_, ?_, ?_⟩
  · intro r j hr hj
    rw [hchar.1]
    dsimp only
    rw [sprTog_at_target c.memory c.i (c.registers x) (c.registers y) n r j hr hj (by omega),
      pix_eq_testBit _ (hmem _) j hj]
  · intro rr cc hcell
    rw [hchar.1]
    dsimp only
    rw [sprTog_off c.memory c.i (c.registers x) (c.registers y) n rr cc hcell,
      Bool.xor_false]
  · have hiff : (sprHit c.screen c.memory c.i (c.registers x) (c.registers y) n = true) ↔
        (∃ r, r < n ∧ ∃ j, j < 8 ∧ ((c.memory (c.i + r)).testBit (7 - j) = true ∧
          c.screen ((c.registers y + r) % 32) ((c.registers x + j) % 64) = true)) := by
      rw [sprHit_eq_true_iff]
      constructor
      · rintro ⟨r, hr, j, hj, hpix, hscr⟩
        exact ⟨r, hr, j, hj, by rw [← pix_eq_testBit _ (hmem _) j hj]; exact hpix, hscr⟩
      · rintro ⟨r, hr, j, hj, hbit, hscr⟩
        exact ⟨r, hr, j, hj, by rw [pix_eq_testBit _ (hmem _) j hj]; exact hbit, hscr⟩
    rw [hchar.2]
    constructor
    · cases hS : sprHit c.screen c.memory c.i (c.registers x) (c.registers y) n
      · rw [← hiff]
        simp [hS]
      · simp only [hS, if_pos]
        simp only [← hiff, hS]
    · cases hS : sprHit c.screen c.memory c.i (c.registers x) (c.registers y) n <;> simp [hS]

/-- Witness for `draw_blit_wraparound_collision`: an `0xFF` one-row sprite
drawn at `(60, 0)` over a fully lit row 0 — column `60+4` wraps to screen
column 0, the cell toggles off, and `VF` reports the collision. -/
theorem draw_blit_wraparound_collision_witness :
    (1 : Nat) < 16 ∧ (2 : Nat) < 16 ∧ (1 : Nat) ≤ 1 ∧ (1 : Nat) ≤ 15 ∧
      (draw 1 2 1 cpuDraw).screen 0 0 = false ∧
      (draw 1 2 1 cpuDraw).registers 15 = 1 := by
  have h := draw_blit_wraparound_collision cpuDraw 1 2 1 (by decide) (by decide)
    (by decide) (by decide) (by decide) (by decide)
    (by intro a; dsimp only [cpuDraw]; split <;> decide)
  refine ⟨by decide, by decide, by decide, by decide, ?_, ?_⟩
  · have h1 := h.1 0 4 (by decide) (by decide)
    exact h1.trans (by decide)
  · exact h.2.2.1.mpr ⟨0, by decide, 4, by decide, by decide, by decide⟩

/-! ### C7: double draw restores the framebuffer -/

/-- C7: drawing the same sprite twice in succession with identical
arguments returns every framebuffer cell to its value before the first
draw, for every start state, origin registers, index register and nibble
height. -/
theorem draw_twice_restores_screen (c : CPU) (x y n : Nat) (hn : n ≤ 15) :
    (draw x y n (draw x y n c)).screen = c.screen := by
  have h1 := (draw_characterization c x y n (by omega)).1
  have h2 := (draw_characterization (draw x y n c) x y n (by omega)).1
  have hm := draw_memory x y n c
  have hi := draw_i x y n c
  have hx : (setReg (draw x y n c) 15 0).registers x = (setReg c 15 0).registers x := by
    by_cases hx15 : x = 15
    · subst hx15
      unfold setReg
      simp
    · unfold setReg
      dsimp only
      rw [Function.update_noteq hx15, Function.update_noteq hx15]
      exact draw_registers_ne x y n c x hx15
  have hy : (setReg (draw x y n c) 15 0).registers y = (setReg c 15 0).registers y := by
    by_cases hy15 : y = 15
    · subst hy15
      unfold setReg
      simp
    · unfold setReg
      dsimp only
      rw [Function.update_noteq hy15, Function.update_noteq hy15]
      exact draw_registers_ne x y n c y hy15
  rw [h2, hm, hi, hx, hy]
  funext r col
  simp only [h1]
  rw [Bool.xor_assoc, Bool.xor_self, Bool.xor_false]

/-- Witness for `draw_twice_restores_screen` at a concrete state and a
concrete 1-row sprite. -/
theorem draw_twice_restores_screen_witness :
    (1 : Nat) ≤ 15 ∧ (draw 1 2 1 (draw 1 2 1 cpuDraw)).screen = cpuDraw.screen :=
  ⟨by decide, draw_twice_restores_screen cpuDraw 1 2 1 (by decide)⟩

end Chip8
